import Mathlib

/-!
# go-openal: the WAV decoder and the one-shot playback routine

A shallow embedding of `openal/util.go`:

* `ReadWavFromMemory` (util.go 115-174) over an explicit model of the
  `bytes.Reader`, `io.ReadFull` and `encoding/binary.Read` calls it makes;
* `PlaySoundFromMemory` (util.go 184-211) as a function producing the trace
  of calls it issues to the OpenAL binding.

Bytes are `UInt8`, Go's `int16`/`int32` are `Int` obtained through the
explicit wrap-around conversions `int16`/`int32`, and a Go run-time panic is an
explicit outcome (`Go.panic`).
-/

namespace openal

/-! ## Go run-time and library model -/

/-- Error values of package `io` that reading from a `bytes.Reader` can give. -/
inductive IOError
  | EOF
  | ErrUnexpectedEOF
  | ErrShortBuffer
  deriving DecidableEq, Repr

/-- The errors built by `fmt.Errorf` in util.go, under the names of the error
taxonomy; `WavError.Error` gives the message each one carries. -/
inductive WavError
  | NotAWavFile
  | UnsupportedWavFile
  | ReadError
  | SizeMismatch
  deriving DecidableEq, Repr

/-- The message of each error, as written in util.go. -/
def WavError.Error : WavError → String
  | .NotAWavFile => "Not a WAV file.\n"
  | .UnsupportedWavFile => "Not supported WAV file.\n"
  | .ReadError => "Cannot read WAV data.\n"
  | .SizeMismatch => "WAV data size doesnt match.\n"

/-- Values a Go panic can carry here: the run-time error of `make` with a
negative length, the run-time error of a nil pointer dereference, or an
`error` value passed to `panic`. -/
inductive Panic
  | makesliceLenOutOfRange
  | nilDereference
  | error (e : WavError)
  deriving DecidableEq, Repr

/-- A Go call either returns a value or panics. -/
inductive Go (α : Type)
  | ret (a : α)
  | panic (p : Panic)
  deriving DecidableEq, Repr

/-- Conversion `int16(x)` of an unsigned value: two's complement wrap-around. -/
def int16 (u : Nat) : Int :=
  if u % 2 ^ 16 < 2 ^ 15 then (u % 2 ^ 16 : Nat) else (u % 2 ^ 16 : Nat) - 2 ^ 16

/-- Conversion `int32(x)` of a non-negative value: two's complement wrap-around. -/
def int32 (u : Nat) : Int :=
  if u % 2 ^ 32 < 2 ^ 31 then (u % 2 ^ 32 : Nat) else (u % 2 ^ 32 : Nat) - 2 ^ 32

/-- The bytes of a string constant (all constants used here are ASCII). -/
def bytesOf (s : String) : List UInt8 :=
  s.toList.map (fun c => c.toNat.toUInt8)

namespace bytes

/-- A `bytes.Reader`: the underlying slice and the current reading index. -/
structure Reader where
  s : List UInt8
  i : Nat
  deriving DecidableEq, Repr

/-- What a `Read` call leaves behind: the count and error it returns, the
contents of the destination slice after the call, and the reader after it. -/
structure ReadResult where
  n : Nat
  err : Option IOError
  b : List UInt8
  r : Reader
  deriving DecidableEq, Repr

/-- `bytes.NewReader(b)`. -/
def NewReader (b : List UInt8) : Reader := ⟨b, 0⟩

/-- `(*bytes.Reader).Read(b)` as of Go 1.7: at the end of the slice it returns
`0, io.EOF` and leaves `b` alone, also when `b` is empty; otherwise
`n = copy(b, r.s[r.i:])` and the index advances by `n`. -/
def Reader.Read (r : Reader) (b : List UInt8) : ReadResult :=
  if r.i ≥ r.s.length then
    ⟨0, some IOError.EOF, b, r⟩
  else
    let src := r.s.drop r.i
    let n := min b.length src.length
    ⟨n, none, src.take n ++ b.drop n, { r with i := r.i + n }⟩

end bytes

namespace io

open bytes

/-- The loop of `io.ReadAtLeast`: `for n < min && err == nil { nn, err =
r.Read(buf[n:]); n += nn }`, run for at most `fuel` iterations. -/
def ReadAtLeastLoop : Nat → Reader → List UInt8 → Nat → Nat → Option IOError → ReadResult
  | 0, r, buf, _, n, err => ⟨n, err, buf, r⟩
  | fuel + 1, r, buf, min, n, err =>
    if n < min ∧ err = none then
      let x := r.Read (buf.drop n)
      ReadAtLeastLoop fuel x.r (buf.take n ++ x.b) min (n + x.n) x.err
    else
      ⟨n, err, buf, r⟩

/-- `io.ReadAtLeast(r, buf, min)`. Every iteration of the loop that does not
end it reads at least one byte, so `min + 1` iterations always suffice
(`ReadFull_of_le`, `ReadFull_of_lt` give the closed form). -/
def ReadAtLeast (r : Reader) (buf : List UInt8) (min : Nat) : ReadResult :=
  if buf.length < min then
    ⟨0, some IOError.ErrShortBuffer, buf, r⟩
  else
    let x := ReadAtLeastLoop (min + 1) r buf min 0 none
    if x.n ≥ min then
      { x with err := none }
    else if x.n > 0 ∧ x.err = some IOError.EOF then
      { x with err := some IOError.ErrUnexpectedEOF }
    else
      x

/-- `io.ReadFull(r, buf)`. -/
def ReadFull (r : Reader) (buf : List UInt8) : ReadResult :=
  ReadAtLeast r buf buf.length

end io

namespace binary

open bytes

/-- `binary.LittleEndian.Uint16(b)`. -/
def LittleEndian.Uint16 (b : List UInt8) : Nat :=
  (b.getD 0 0).toNat + (b.getD 1 0).toNat * 2 ^ 8

/-- `binary.LittleEndian.Uint32(b)`. -/
def LittleEndian.Uint32 (b : List UInt8) : Nat :=
  (b.getD 0 0).toNat + (b.getD 1 0).toNat * 2 ^ 8 + (b.getD 2 0).toNat * 2 ^ 16
    + (b.getD 3 0).toNat * 2 ^ 24

/-- What `binary.Read` leaves behind: the error it returns, the value of the
variable it was given a pointer to, and the reader. -/
structure Result (α : Type) where
  err : Option IOError
  data : α
  r : Reader

/-- `binary.Read(r, binary.LittleEndian, &v)` for `v` of type `int32`: read four
bytes with `io.ReadFull`; on an error return it and leave `v` as it was. -/
def Read_int32 (r : Reader) (v : Int) : Result Int :=
  let x := io.ReadFull r (List.replicate 4 0)
  if x.err ≠ none then ⟨x.err, v, x.r⟩
  else ⟨none, int32 (LittleEndian.Uint32 x.b), x.r⟩

end binary

/-! ## util.go: the data model -/

/-- `type WavFormat struct` (util.go 26-33). -/
structure WavFormat where
  FormatTag : Int
  Channels : Int
  Samples : Int
  AvgBytes : Int
  BlockAlign : Int
  BitsPerSample : Int
  deriving DecidableEq, Repr

/-- `type WavFormat2 struct` (util.go 35-38). -/
structure WavFormat2 extends WavFormat where
  SizeOfExtension : Int
  deriving DecidableEq, Repr

/-- `type WavFormat3 struct` (util.go 40-45). -/
structure WavFormat3 extends WavFormat2 where
  ValidBitsPerSample : Int
  ChannelMask : Int
  SubFormat : List UInt8
  deriving DecidableEq, Repr

/-- The zero value of `WavFormat` (`var format WavFormat`). -/
def WavFormat.zero : WavFormat := ⟨0, 0, 0, 0, 0, 0⟩

/-- The zero value of `WavFormat2`. -/
def WavFormat2.zero : WavFormat2 := ⟨WavFormat.zero, 0⟩

/-- The zero value of `WavFormat3`. -/
def WavFormat3.zero : WavFormat3 := ⟨WavFormat2.zero, 0, 0, List.replicate 16 0⟩

namespace binary

open bytes

/-- The field-by-field little-endian decoding `binary.Read` performs on the 16
bytes of a `WavFormat`. -/
def decodeWavFormat (bs : List UInt8) : WavFormat :=
  { FormatTag := int16 (LittleEndian.Uint16 (bs.drop 0))
    Channels := int16 (LittleEndian.Uint16 (bs.drop 2))
    Samples := int32 (LittleEndian.Uint32 (bs.drop 4))
    AvgBytes := int32 (LittleEndian.Uint32 (bs.drop 8))
    BlockAlign := int16 (LittleEndian.Uint16 (bs.drop 12))
    BitsPerSample := int16 (LittleEndian.Uint16 (bs.drop 14)) }

/-- The decoding of the 18 bytes of a `WavFormat2`. -/
def decodeWavFormat2 (bs : List UInt8) : WavFormat2 :=
  { toWavFormat := decodeWavFormat bs
    SizeOfExtension := int16 (LittleEndian.Uint16 (bs.drop 16)) }

/-- The decoding of the 40 bytes of a `WavFormat3`. -/
def decodeWavFormat3 (bs : List UInt8) : WavFormat3 :=
  { toWavFormat2 := decodeWavFormat2 bs
    ValidBitsPerSample := int16 (LittleEndian.Uint16 (bs.drop 18))
    ChannelMask := int32 (LittleEndian.Uint32 (bs.drop 20))
    SubFormat := (bs.drop 24).take 16 }

/-- `binary.Read(r, binary.LittleEndian, &v)` for `v` of type `WavFormat`
(`dataSize` 16). -/
def Read_WavFormat (r : Reader) (v : WavFormat) : Result WavFormat :=
  let x := io.ReadFull r (List.replicate 16 0)
  if x.err ≠ none then ⟨x.err, v, x.r⟩
  else ⟨none, decodeWavFormat x.b, x.r⟩

/-- `binary.Read(r, binary.LittleEndian, &v)` for `v` of type `WavFormat2`
(`dataSize` 18). -/
def Read_WavFormat2 (r : Reader) (v : WavFormat2) : Result WavFormat2 :=
  let x := io.ReadFull r (List.replicate 18 0)
  if x.err ≠ none then ⟨x.err, v, x.r⟩
  else ⟨none, decodeWavFormat2 x.b, x.r⟩

/-- `binary.Read(r, binary.LittleEndian, &v)` for `v` of type `WavFormat3`
(`dataSize` 40). -/
def Read_WavFormat3 (r : Reader) (v : WavFormat3) : Result WavFormat3 :=
  let x := io.ReadFull r (List.replicate 40 0)
  if x.err ≠ none then ⟨x.err, v, x.r⟩
  else ⟨none, decodeWavFormat3 x.b, x.r⟩

end binary

/-! ## util.go: `ReadWavFromMemory` -/

/-- The three results `(*WavFormat, []byte, error)` of `ReadWavFromMemory`;
`none` is Go's `nil`. -/
structure WavReturn where
  format : Option WavFormat
  data : Option (List UInt8)
  err : Option WavError
  deriving DecidableEq, Repr

/-- The `switch size` of util.go 143-154: the format after it and the reader
after it. -/
def readFmtBody (f : bytes.Reader) (size : Int) (format : WavFormat) :
    WavFormat × bytes.Reader :=
  if size = 16 then
    let x := binary.Read_WavFormat f format
    (x.data, x.r)
  else if size = 18 then
    let x := binary.Read_WavFormat2 f WavFormat2.zero
    (x.data.toWavFormat, x.r)
  else if size = 40 then
    let x := binary.Read_WavFormat3 f WavFormat3.zero
    (x.data.toWavFormat, x.r)
  else
    (format, f)

/-- `ReadWavFromMemory` (util.go 115-174). The results of `f.Read(buff[:4])`
and of `binary.Read` are dropped as in the source: only the buffer, the
variable and the reader they leave behind are used. `make([]byte, size)`
panics on a negative `size` and is taken to succeed otherwise. -/
def ReadWavFromMemory (memory : List UInt8) : Go WavReturn :=
  let f := bytes.NewReader memory
  let buff : List UInt8 := [0, 0, 0, 0]
  let x := f.Read buff
  let f := x.r
  let buff := x.b
  if buff ≠ bytesOf "RIFF" then
    Go.ret ⟨none, none, some WavError.NotAWavFile⟩
  else
    let size : Int := 0
    let y := binary.Read_int32 f size
    let f := y.r
    let size := y.data
    let x := f.Read buff
    let f := x.r
    let buff := x.b
    if buff ≠ bytesOf "WAVE" then
      Go.ret ⟨none, none, some WavError.NotAWavFile⟩
    else
      let x := f.Read buff
      let f := x.r
      let buff := x.b
      if buff ≠ bytesOf "fmt " then
        Go.ret ⟨none, none, some WavError.NotAWavFile⟩
      else
        let y := binary.Read_int32 f size
        let f := y.r
        let size := y.data
        let format : WavFormat := WavFormat.zero
        let z := readFmtBody f size format
        let format := z.1
        let f := z.2
        let x := f.Read buff
        let f := x.r
        let buff := x.b
        if buff ≠ bytesOf "data" then
          Go.ret ⟨none, none, some WavError.UnsupportedWavFile⟩
        else
          let y := binary.Read_int32 f size
          let f := y.r
          let size := y.data
          if size < 0 then
            Go.panic Panic.makesliceLenOutOfRange
          else
            let wavData : List UInt8 := List.replicate size.toNat 0
            let x := f.Read wavData
            let n := x.n
            let e := x.err
            let wavData := x.b
            if e ≠ none then
              Go.ret ⟨none, none, some WavError.ReadError⟩
            else if int32 n ≠ size then
              Go.ret ⟨none, none, some WavError.SizeMismatch⟩
            else
              Go.ret ⟨some format, some wavData, none⟩

/-! ## Stages and closed forms of the decoder, and the byte layout of §4.1 -/

/-- Number of bytes the `switch size` of util.go 143-154 asks `binary.Read` for. -/
def fmtBodyLen (S : Int) : Nat :=
  if S = 16 then 16 else if S = 18 then 18 else if S = 40 then 40 else 0

/-- The format the `switch size` leaves behind when its read is complete. -/
def fmtOfBody (S : Int) (body : List UInt8) : WavFormat :=
  if S = 16 ∨ S = 18 ∨ S = 40 then binary.decodeWavFormat body else WavFormat.zero

/-- Lines 156-173 of util.go, from the read of the `data` tag on, as a function
of the reader, the tag buffer, the `size` variable and the format at that
point. -/
def dataStage (f : bytes.Reader) (buff : List UInt8) (size : Int) (format : WavFormat) :
    Go WavReturn :=
  let x := f.Read buff
  let f := x.r
  let buff := x.b
  if buff ≠ bytesOf "data" then
    Go.ret ⟨none, none, some WavError.UnsupportedWavFile⟩
  else
    let y := binary.Read_int32 f size
    let f := y.r
    let size := y.data
    if size < 0 then
      Go.panic Panic.makesliceLenOutOfRange
    else
      let wavData : List UInt8 := List.replicate size.toNat 0
      let x := f.Read wavData
      let n := x.n
      let e := x.err
      let wavData := x.b
      if e ≠ none then
        Go.ret ⟨none, none, some WavError.ReadError⟩
      else if int32 n ≠ size then
        Go.ret ⟨none, none, some WavError.SizeMismatch⟩
      else
        Go.ret ⟨some format, some wavData, none⟩

/-- What `dataStage` computes, by offsets into the input (`dataStage_eq`): `p` is
the offset of the `data` tag, `S` the value `size` holds before the data size
is read. -/
def dataClosed (s : List UInt8) (p : Nat) (S : Int) (format : WavFormat) : Go WavReturn :=
  if (s.drop p).take 4 ≠ bytesOf "data" then
    Go.ret ⟨none, none, some WavError.UnsupportedWavFile⟩
  else if s.length < p + 8 then
    if S < 0 then Go.panic Panic.makesliceLenOutOfRange
    else Go.ret ⟨none, none, some WavError.ReadError⟩
  else
    let D := int32 (binary.LittleEndian.Uint32 ((s.drop (p + 4)).take 4))
    if D < 0 then Go.panic Panic.makesliceLenOutOfRange
    else if s.length = p + 8 then Go.ret ⟨none, none, some WavError.ReadError⟩
    else if s.length - (p + 8) < D.toNat then Go.ret ⟨none, none, some WavError.SizeMismatch⟩
    else Go.ret ⟨some format, some ((s.drop (p + 8)).take D.toNat), none⟩

/-- What `ReadWavFromMemory` computes, by offsets into the input
(`ReadWavFromMemory_eq`). -/
def ReadWavClosed (m : List UInt8) : Go WavReturn :=
  if m.take 4 ≠ bytesOf "RIFF" then
    Go.ret ⟨none, none, some WavError.NotAWavFile⟩
  else if (m.drop 8).take 4 ≠ bytesOf "WAVE" then
    Go.ret ⟨none, none, some WavError.NotAWavFile⟩
  else if (m.drop 12).take 4 ≠ bytesOf "fmt " then
    Go.ret ⟨none, none, some WavError.NotAWavFile⟩
  else if m.length < 20 then
    Go.ret ⟨none, none, some WavError.UnsupportedWavFile⟩
  else
    let S := int32 (binary.LittleEndian.Uint32 ((m.drop 16).take 4))
    dataClosed m (20 + fmtBodyLen S) S (fmtOfBody S ((m.drop 20).take (fmtBodyLen S)))

/-- Little-endian bytes of a 16-bit value. -/
def putUint16 (v : Nat) : List UInt8 :=
  [(v % 256).toUInt8, (v / 256 % 256).toUInt8]

/-- Little-endian bytes of a 32-bit value. -/
def putUint32 (v : Nat) : List UInt8 :=
  [(v % 256).toUInt8, (v / 256 % 256).toUInt8, (v / 65536 % 256).toUInt8,
    (v / 16777216 % 256).toUInt8]

/-- Little-endian bytes of an `int16`. -/
def putInt16 (x : Int) : List UInt8 := putUint16 (x % 2 ^ 16).toNat

/-- Little-endian bytes of an `int32`. -/
def putInt32 (x : Int) : List UInt8 := putUint32 (x % 2 ^ 32).toNat

/-- A `WavFormat` whose fields hold values of their Go types. -/
def WavFormat.InRange (d : WavFormat) : Prop :=
  (-2 ^ 15 ≤ d.FormatTag ∧ d.FormatTag < 2 ^ 15) ∧
  (-2 ^ 15 ≤ d.Channels ∧ d.Channels < 2 ^ 15) ∧
  (-2 ^ 31 ≤ d.Samples ∧ d.Samples < 2 ^ 31) ∧
  (-2 ^ 31 ≤ d.AvgBytes ∧ d.AvgBytes < 2 ^ 31) ∧
  (-2 ^ 15 ≤ d.BlockAlign ∧ d.BlockAlign < 2 ^ 15) ∧
  (-2 ^ 15 ≤ d.BitsPerSample ∧ d.BitsPerSample < 2 ^ 15)

/-- Written from the layout of §4.1, not from the code: the six fields of the
base descriptor, little-endian, 16 bytes. -/
def encodeWavFormat (d : WavFormat) : List UInt8 :=
  putInt16 d.FormatTag ++ putInt16 d.Channels ++ putInt32 d.Samples ++ putInt32 d.AvgBytes
    ++ putInt16 d.BlockAlign ++ putInt16 d.BitsPerSample

/-- Written from the layout of §4.1, not from the code: `RIFF`, a four-byte
size, `WAVE`, `fmt `, little-endian 16, the six fields, `data`, the
little-endian payload length, the payload bytes. -/
def encodeWav (riffSize : Nat) (d : WavFormat) (payload : List UInt8) : List UInt8 :=
  bytesOf "RIFF" ++ putUint32 riffSize ++ bytesOf "WAVE" ++ bytesOf "fmt " ++ putUint32 16
    ++ encodeWavFormat d ++ bytesOf "data" ++ putUint32 payload.length ++ payload

/-! ## util.go: `PlaySoundFromMemory` -/

/-- Modelled from the spec: the hardware format enum given to `Buffer.SetData`
(the constants `FormatMono16` and `FormatStereo16` are declared in the cgo
binding, which is not among the sources). -/
inductive Format
  | FormatMono16
  | FormatStereo16
  deriving DecidableEq, Repr

/-- Modelled from the spec: the states `Source.State()` can report (§3: Initial,
Playing, Paused, Stopped); the constant `Playing` is declared in the cgo
binding, which is not among the sources. -/
inductive SourceState
  | Initial
  | Playing
  | Paused
  | Stopped
  deriving DecidableEq, Repr

/-- Modelled from the spec: the calls `PlaySoundFromMemory` issues to the OpenAL
binding (§6), each recorded with the arguments it is given. The binding itself
is cgo code that is not among the sources; its calls are taken to return. -/
inductive Call
  | OpenDevice (name : String)
  | CreateContext
  | Activate
  | NewSource
  | NewBuffer
  | SetData (format : Format) (data : List UInt8) (frequency : Int)
  | SetBuffer
  | Play
  | State
  | Destroy
  deriving DecidableEq, Repr

/-- How an observed run of `PlaySoundFromMemory` ends: it returned, it
panicked, or it is still in its polling loop when the recorded answers of
`source.State()` are used up. -/
inductive Exit
  | returned
  | panicked (p : Panic)
  | polling
  deriving DecidableEq, Repr

/-- A run: the calls issued to the binding, in order, and how the run ended. -/
structure Run where
  trace : List Call
  exit : Exit
  deriving DecidableEq, Repr

/-- The loop `for source.State() == Playing {}` (util.go 206-208) against the
successive answers of `source.State()`: the calls it issues, and whether it
was left. -/
def pollWhilePlaying : List SourceState → List Call × Bool
  | [] => ([], false)
  | st :: rest =>
    if st = SourceState.Playing then
      let x := pollWhilePlaying rest
      (Call.State :: x.1, x.2)
    else
      ([Call.State], true)

/-- `PlaySoundFromMemory` (util.go 184-211); `states` are the successive
answers of `source.State()`. A panic inside `ReadWavFromMemory` goes through
(nothing recovers it), `panic(err)` panics with the decoder's error, and the
dereference `format.Channels` needs a non-nil `format`. -/
def PlaySoundFromMemory (memory : List UInt8) (states : List SourceState) : Run :=
  let t : List Call :=
    [Call.OpenDevice "", Call.CreateContext, Call.Activate, Call.NewSource, Call.NewBuffer]
  match ReadWavFromMemory memory with
  | Go.panic p => ⟨t, Exit.panicked p⟩
  | Go.ret r =>
    match r.err with
    | some err => ⟨t, Exit.panicked (Panic.error err)⟩
    | none =>
      match r.format with
      | none => ⟨t, Exit.panicked Panic.nilDereference⟩
      | some format =>
        let data := r.data.getD []
        let t :=
          if format.Channels = 1 then
            t ++ [Call.SetData Format.FormatMono16 data format.Samples]
          else if format.Channels = 2 then
            t ++ [Call.SetData Format.FormatStereo16 data format.Samples]
          else
            t
        let t := t ++ [Call.SetBuffer, Call.Play]
        let x := pollWhilePlaying states
        if x.2 then ⟨t ++ x.1 ++ [Call.Destroy], Exit.returned⟩
        else ⟨t ++ x.1, Exit.polling⟩

/-! ## Vocabulary of the statements -/

/-- The three magics are where `ReadWavFromMemory` looks for them: bytes 0..3,
8..11 and 12..15. -/
def ValidMagics (m : List UInt8) : Prop :=
  m.take 4 = bytesOf "RIFF" ∧ (m.drop 8).take 4 = bytesOf "WAVE"
    ∧ (m.drop 12).take 4 = bytesOf "fmt "

/-- The `fmt ` chunk size `S`: bytes 16..19, little-endian, as an `int32`. -/
def fmtSize (m : List UInt8) : Int :=
  int32 (binary.LittleEndian.Uint32 ((m.drop 16).take 4))

/-- Offset of the `data` tag: right after the `fmt ` body the decoder reads. -/
def dataOffset (m : List UInt8) : Nat := 20 + fmtBodyLen (fmtSize m)

/-- The declared data size `D`: the four bytes after the `data` tag,
little-endian, as an unsigned value. -/
def dataSizeField (m : List UInt8) : Nat :=
  binary.LittleEndian.Uint32 ((m.drop (dataOffset m + 4)).take 4)

/-- `'RIFF'`, four size bytes, `'WAVE'`, `'fmt '`. -/
def wavHeader (sz : List UInt8) : List UInt8 :=
  bytesOf "RIFF" ++ sz ++ bytesOf "WAVE" ++ bytesOf "fmt "

/-- A mono, 16-bit, 8000 Hz descriptor. -/
def monoFormat : WavFormat := ⟨1, 1, 8000, 16000, 2, 16⟩

/-- A three-channel, 16-bit, 8000 Hz descriptor. -/
def threeChannelFormat : WavFormat := ⟨1, 3, 8000, 48000, 6, 16⟩

/-- A clip whose `data` chunk declares four bytes and carries none. -/
def truncatedWav : List UInt8 :=
  wavHeader (putUint32 36) ++ putUint32 16 ++ encodeWavFormat monoFormat ++ bytesOf "data"
    ++ putUint32 4

/-- A clip whose data size field is `FF FF FF FF`, that is `-1` as an `int32`. -/
def negativeSizeWav : List UInt8 :=
  wavHeader (putUint32 36) ++ putUint32 16 ++ encodeWavFormat monoFormat ++ bytesOf "data"
    ++ [255, 255, 255, 255]

/-- What follows `source.Play()` in a run (util.go 206-210): the calls of the
polling loop and, once it is left, `context.Destroy()`; and how the run ends. -/
def afterPlay (states : List SourceState) : List Call × Exit :=
  if (pollWhilePlaying states).2 then
    ((pollWhilePlaying states).1 ++ [Call.Destroy], Exit.returned)
  else
    ((pollWhilePlaying states).1, Exit.polling)

/-! ## Lemmas: closed forms of the library calls and of the decoder -/

theorem Read_of_le (s : List UInt8) (i : Nat) (b : List UInt8)
    (hb : 0 < b.length) (h : i + b.length ≤ s.length) :
    bytes.Reader.Read ⟨s, i⟩ b = ⟨b.length, none, (s.drop i).take b.length, ⟨s, i + b.length⟩⟩ := by
  have h1 : ¬ (i ≥ s.length) := by omega
  have h2 : min b.length (s.length - i) = b.length := by omega
  simp [bytes.Reader.Read, h1, h2]

theorem Read_of_ge (s : List UInt8) (i : Nat) (b : List UInt8) (h : s.length ≤ i) :
    bytes.Reader.Read ⟨s, i⟩ b = ⟨0, some IOError.EOF, b, ⟨s, i⟩⟩ := by
  simp [bytes.Reader.Read, h]

theorem Read_of_lt (s : List UInt8) (i : Nat) (b : List UInt8)
    (h1 : i < s.length) (h2 : s.length < i + b.length) :
    bytes.Reader.Read ⟨s, i⟩ b
      = ⟨s.length - i, none, s.drop i ++ b.drop (s.length - i), ⟨s, s.length⟩⟩ := by
  have h3 : ¬ (i ≥ s.length) := by omega
  have h4 : min b.length (s.length - i) = s.length - i := by omega
  have h5 : i + (s.length - i) = s.length := by omega
  simp [bytes.Reader.Read, h3, h4, h5]

theorem ReadFull_of_le (s : List UInt8) (i : Nat) (buf : List UInt8)
    (hb : 0 < buf.length) (h : i + buf.length ≤ s.length) :
    io.ReadFull ⟨s, i⟩ buf
      = ⟨buf.length, none, (s.drop i).take buf.length, ⟨s, i + buf.length⟩⟩ := by
  obtain ⟨k, hk⟩ : ∃ k, buf.length = k + 1 := ⟨buf.length - 1, by omega⟩
  simp only [io.ReadFull, io.ReadAtLeast, io.ReadAtLeastLoop, hk]
  simp only [List.drop_zero, List.take_zero, List.nil_append]
  rw [Read_of_le s i buf hb h, hk]
  simp [io.ReadAtLeastLoop]

theorem ReadFull_of_lt (s : List UInt8) (i : Nat) (buf : List UInt8)
    (hi : i ≤ s.length) (h : s.length < i + buf.length) :
    (io.ReadFull ⟨s, i⟩ buf).err ≠ none ∧ (io.ReadFull ⟨s, i⟩ buf).r = ⟨s, s.length⟩ := by
  obtain ⟨k, hk⟩ : ∃ k, buf.length = k + 1 := ⟨buf.length - 1, by omega⟩
  rcases Nat.eq_or_lt_of_le hi with heq | hlt
  · subst heq
    simp only [io.ReadFull, io.ReadAtLeast, io.ReadAtLeastLoop, hk]
    simp only [List.drop_zero, List.take_zero, List.nil_append]
    rw [Read_of_ge s s.length buf le_rfl]
    simp [io.ReadAtLeastLoop]
  · simp only [io.ReadFull, io.ReadAtLeast, io.ReadAtLeastLoop, hk]
    simp only [List.drop_zero, List.take_zero, List.nil_append]
    rw [Read_of_lt s i buf hlt h]
    obtain ⟨j, hj⟩ : ∃ j, k = j + 1 := ⟨k - 1, by omega⟩
    subst hj
    have h6 : s.length - i < j + 1 + 1 := by omega
    simp only [io.ReadAtLeastLoop, Nat.zero_add, lt_self_iff_false, not_lt_zero', h6, and_self,
      if_true, List.nil_append]
    rw [Read_of_ge s s.length _ le_rfl]
    have h7 : ¬ (j + 1 + 1 ≤ s.length - i) := by omega
    have h8 : 0 < s.length - i := by omega
    simp [io.ReadAtLeastLoop, h7, h8]

theorem Read_of_pos_lt (s : List UInt8) (i : Nat) (b : List UInt8) (h1 : i < s.length) :
    bytes.Reader.Read ⟨s, i⟩ b
      = ⟨min b.length (s.length - i), none,
          (s.drop i).take (min b.length (s.length - i)) ++ b.drop (min b.length (s.length - i)),
          ⟨s, i + min b.length (s.length - i)⟩⟩ := by
  have h3 : ¬ (i ≥ s.length) := by omega
  simp [bytes.Reader.Read, h3]

theorem Read_int32_of_le (s : List UInt8) (i : Nat) (v : Int) (h : i + 4 ≤ s.length) :
    binary.Read_int32 ⟨s, i⟩ v
      = ⟨none, int32 (binary.LittleEndian.Uint32 ((s.drop i).take 4)), ⟨s, i + 4⟩⟩ := by
  have := ReadFull_of_le s i (List.replicate 4 0) (by simp) (by simpa using h)
  simp only [List.length_replicate] at this
  simp only [binary.Read_int32, this]
  simp

theorem Read_int32_of_lt (s : List UInt8) (i : Nat) (v : Int) (hi : i ≤ s.length)
    (h : s.length < i + 4) :
    (binary.Read_int32 ⟨s, i⟩ v).data = v ∧ (binary.Read_int32 ⟨s, i⟩ v).r = ⟨s, s.length⟩ := by
  have := ReadFull_of_lt s i (List.replicate 4 0) hi (by simpa using h)
  simp only [binary.Read_int32, this.1, this.2, ne_eq, not_false_eq_true, if_true, and_self]

theorem decodeWavFormat_take (k : Nat) (hk : 16 ≤ k) (bs : List UInt8) :
    binary.decodeWavFormat (bs.take k) = binary.decodeWavFormat bs := by
  have key : ∀ j, j < 16 → (bs.take k).getD j 0 = bs.getD j 0 := by
    intro j hj
    simp only [List.getD_eq_getElem?_getD]
    rw [List.getElem?_take_of_lt (by omega)]
  simp only [binary.decodeWavFormat, binary.LittleEndian.Uint16, binary.LittleEndian.Uint32,
    List.getD_eq_getElem?_getD, List.getElem?_drop] at key ⊢
  simp [key]

theorem readFmtBody_of_le (s : List UInt8) (i : Nat) (S : Int)
    (h : i + fmtBodyLen S ≤ s.length) :
    readFmtBody ⟨s, i⟩ S WavFormat.zero
      = (fmtOfBody S ((s.drop i).take (fmtBodyLen S)), ⟨s, i + fmtBodyLen S⟩) := by
  unfold readFmtBody fmtOfBody
  by_cases h16 : S = 16
  · subst h16
    have := ReadFull_of_le s i (List.replicate 16 0) (by simp) (by simpa [fmtBodyLen] using h)
    simp only [List.length_replicate] at this
    simp only [binary.Read_WavFormat, this]
    simp [fmtBodyLen]
  by_cases h18 : S = 18
  · subst h18
    have := ReadFull_of_le s i (List.replicate 18 0) (by simp) (by simpa [fmtBodyLen] using h)
    simp only [List.length_replicate] at this
    simp only [binary.Read_WavFormat2, this]
    simp [fmtBodyLen, binary.decodeWavFormat2]
  by_cases h40 : S = 40
  · subst h40
    have := ReadFull_of_le s i (List.replicate 40 0) (by simp) (by simpa [fmtBodyLen] using h)
    simp only [List.length_replicate] at this
    simp only [binary.Read_WavFormat3, this]
    simp [fmtBodyLen, binary.decodeWavFormat2, binary.decodeWavFormat3]
  simp [h16, h18, h40, fmtBodyLen]

theorem readFmtBody_of_lt (s : List UInt8) (i : Nat) (S : Int) (hi : i ≤ s.length)
    (h : s.length < i + fmtBodyLen S) :
    readFmtBody ⟨s, i⟩ S WavFormat.zero = (WavFormat.zero, ⟨s, s.length⟩) := by
  unfold readFmtBody
  by_cases h16 : S = 16
  · subst h16
    have := ReadFull_of_lt s i (List.replicate 16 0) hi (by simpa [fmtBodyLen] using h)
    simp only [binary.Read_WavFormat, this.1, this.2, ne_eq, not_false_eq_true, if_true]
  by_cases h18 : S = 18
  · subst h18
    have := ReadFull_of_lt s i (List.replicate 18 0) hi (by simpa [fmtBodyLen] using h)
    simp only [binary.Read_WavFormat2, this.1, this.2, ne_eq, not_false_eq_true, if_true, WavFormat2.zero]
    simp
  by_cases h40 : S = 40
  · subst h40
    have := ReadFull_of_lt s i (List.replicate 40 0) hi (by simpa [fmtBodyLen] using h)
    simp only [binary.Read_WavFormat3, this.1, this.2, ne_eq, not_false_eq_true, if_true, WavFormat2.zero, WavFormat3.zero]
    simp
  simp [h16, h18, h40, fmtBodyLen] at h
  omega

theorem bytesOf_RIFF : bytesOf "RIFF" = [82, 73, 70, 70] := by decide
theorem bytesOf_WAVE : bytesOf "WAVE" = [87, 65, 86, 69] := by decide
theorem bytesOf_fmt : bytesOf "fmt " = [102, 109, 116, 32] := by decide
theorem bytesOf_data : bytesOf "data" = [100, 97, 116, 97] := by decide

theorem Read_tag_ok (s : List UInt8) (i : Nat) (buff tag : List UInt8)
    (hb : buff.length = 4) (ht : tag.length = 4) (h : (s.drop i).take 4 = tag) :
    bytes.Reader.Read ⟨s, i⟩ buff = ⟨4, none, tag, ⟨s, i + 4⟩⟩ := by
  have hl : i + 4 ≤ s.length := by
    have := congrArg List.length h
    simp only [List.length_take, List.length_drop, ht] at this
    omega
  have := Read_of_le s i buff (by omega) (by omega)
  rw [hb, h] at this
  exact this

theorem Read_tag_bad (s : List UInt8) (i : Nat) (buff tag : List UInt8)
    (hb : buff.length = 4) (hlast : buff.getD 3 0 ≠ tag.getD 3 0)
    (h : (s.drop i).take 4 ≠ tag) :
    (bytes.Reader.Read ⟨s, i⟩ buff).b ≠ tag := by
  by_cases hl : i + 4 ≤ s.length
  · have := Read_of_le s i buff (by omega) (by omega)
    rw [hb] at this
    rw [this]
    exact h
  · intro hEq
    apply hlast
    rw [← hEq]
    by_cases hge : s.length ≤ i
    · rw [Read_of_ge s i buff hge]
    · rw [Read_of_lt s i buff (by omega) (by omega)]
      simp only [List.getD_eq_getElem?_getD]
      rw [List.getElem?_append_right (by simp; omega)]
      simp only [List.length_drop, List.getElem?_drop]
      congr 2
      omega

theorem int32_lt (u : Nat) : int32 u < 2 ^ 31 := by
  unfold int32
  split <;> omega

theorem int32_of_lt (n : Nat) (h : n < 2 ^ 31) : int32 n = n := by
  unfold int32
  have : n % 2 ^ 32 = n := Nat.mod_eq_of_lt (by omega)
  rw [this, if_pos h]

theorem dataStage_eq (s : List UInt8) (p : Nat) (buff : List UInt8) (S : Int)
    (format : WavFormat) (hb : buff.length = 4) (hlast : buff.getD 3 0 ≠ 97) :
    dataStage ⟨s, p⟩ buff S format = dataClosed s p S format := by
  unfold dataStage dataClosed
  by_cases htag : (s.drop p).take 4 = bytesOf "data"
  · have hp : p + 4 ≤ s.length := by
      have := congrArg List.length htag
      simp only [List.length_take, List.length_drop, bytesOf_data, List.length_cons,
        List.length_nil] at this
      omega
    rw [Read_tag_ok s p buff (bytesOf "data") hb (by simp [bytesOf_data]) htag]
    simp only [ne_eq, not_true_eq_false, if_false, htag]
    by_cases h8 : s.length < p + 8
    · obtain ⟨hd, hr⟩ := Read_int32_of_lt s (p + 4) S hp (by omega)
      simp only [hd, hr, h8, if_true]
      by_cases hS : S < 0
      · simp [hS]
      · rw [Read_of_ge s s.length _ le_rfl]
        simp [hS]
    · rw [Read_int32_of_le s (p + 4) S (by omega)]
      simp only [h8, if_false]
      have hD := int32_lt (binary.LittleEndian.Uint32 ((s.drop (p + 4)).take 4))
      generalize int32 (binary.LittleEndian.Uint32 ((s.drop (p + 4)).take 4)) = D at hD ⊢
      have e8 : p + 4 + 4 = p + 8 := by omega
      rw [e8]
      by_cases hD0 : D < 0
      · simp [hD0]
      simp only [hD0, if_false]
      by_cases hlen : s.length = p + 8
      · rw [Read_of_ge s (p + 8) _ (by omega)]
        simp [hlen]
      have hlt : p + 8 < s.length := by omega
      rw [Read_of_pos_lt s (p + 8) _ hlt]
      simp only [List.length_replicate, ne_eq, not_true_eq_false, if_false, hlen]
      have hn : min D.toNat (s.length - (p + 8)) < 2 ^ 31 := by omega
      rw [int32_of_lt _ hn]
      by_cases hshort : s.length - (p + 8) < D.toNat
      · have hne : ¬ ((min D.toNat (s.length - (p + 8)) : Nat) : Int) = D := by omega
        simp only [hne, not_false_eq_true, if_true, hshort]
      · have hmin : min D.toNat (s.length - (p + 8)) = D.toNat := by omega
        have heq : ((min D.toNat (s.length - (p + 8)) : Nat) : Int) = D := by omega
        simp only [heq, not_true_eq_false, if_false, hshort]
        rw [hmin]
        simp
  · have hbad := Read_tag_bad s p buff (bytesOf "data") hb (by simpa [bytesOf_data] using hlast) htag
    simp [hbad, htag]

theorem ReadWavFromMemory_stages (m : List UInt8) :
    ReadWavFromMemory m =
      (let x := bytes.Reader.Read ⟨m, 0⟩ [0, 0, 0, 0]
       if x.b ≠ bytesOf "RIFF" then Go.ret ⟨none, none, some WavError.NotAWavFile⟩
       else
         let y := binary.Read_int32 x.r 0
         let x2 := y.r.Read x.b
         if x2.b ≠ bytesOf "WAVE" then Go.ret ⟨none, none, some WavError.NotAWavFile⟩
         else
           let x3 := x2.r.Read x2.b
           if x3.b ≠ bytesOf "fmt " then Go.ret ⟨none, none, some WavError.NotAWavFile⟩
           else
             let y2 := binary.Read_int32 x3.r y.data
             let z := readFmtBody y2.r y2.data WavFormat.zero
             dataStage z.2 x3.b y2.data z.1) := rfl

theorem length_of_take_drop_eq (m : List UInt8) (i : Nat) (tag : List UInt8)
    (ht : tag.length = 4) (h : (m.drop i).take 4 = tag) : i + 4 ≤ m.length := by
  have := congrArg List.length h
  simp only [List.length_take, List.length_drop, ht] at this
  omega

theorem ReadWavFromMemory_eq (m : List UInt8) : ReadWavFromMemory m = ReadWavClosed m := by
  rw [ReadWavFromMemory_stages]
  unfold ReadWavClosed
  by_cases h1 : m.take 4 = bytesOf "RIFF"
  swap
  · have hbad := Read_tag_bad m 0 [0, 0, 0, 0] (bytesOf "RIFF") rfl
      (by simp [bytesOf_RIFF]) (by simpa using h1)
    simp only [hbad, h1, ne_eq, not_false_eq_true, if_true]
  have hl4 : 0 + 4 ≤ m.length := length_of_take_drop_eq m 0 (bytesOf "RIFF") (by simp [bytesOf_RIFF]) (by simpa using h1)
  simp only [Read_tag_ok m 0 [0, 0, 0, 0] (bytesOf "RIFF") rfl (by simp [bytesOf_RIFF])
    (by simpa using h1), h1, ne_eq, not_true_eq_false, if_false]
  by_cases h2 : (m.drop 8).take 4 = bytesOf "WAVE"
  swap
  · by_cases hl8 : 8 ≤ m.length
    · rw [Read_int32_of_le m (0 + 4) 0 (by omega)]
      have hbad := Read_tag_bad m (0 + 4 + 4) (bytesOf "RIFF") (bytesOf "WAVE")
        (by simp [bytesOf_RIFF]) (by simp [bytesOf_RIFF, bytesOf_WAVE]) h2
      simp only [hbad, h2, ne_eq, not_false_eq_true, if_true]
    · obtain ⟨-, hr⟩ := Read_int32_of_lt m (0 + 4) 0 hl4 (by omega)
      have hbad := Read_tag_bad m m.length (bytesOf "RIFF") (bytesOf "WAVE")
        (by simp [bytesOf_RIFF]) (by simp [bytesOf_RIFF, bytesOf_WAVE])
        (by simp [bytesOf_WAVE])
      simp only [hr, hbad, h2, ne_eq, not_false_eq_true, if_true]
  have hl12 : 8 + 4 ≤ m.length := length_of_take_drop_eq m 8 (bytesOf "WAVE") (by simp [bytesOf_WAVE]) h2
  rw [Read_int32_of_le m (0 + 4) 0 (by omega)]
  simp only [Read_tag_ok m (0 + 4 + 4) (bytesOf "RIFF") (bytesOf "WAVE") (by simp [bytesOf_RIFF])
    (by simp [bytesOf_WAVE]) h2, h2, ne_eq, not_true_eq_false, if_false]
  by_cases h3 : (m.drop 12).take 4 = bytesOf "fmt "
  swap
  · have hbad := Read_tag_bad m (0 + 4 + 4 + 4) (bytesOf "WAVE") (bytesOf "fmt ")
      (by simp [bytesOf_WAVE]) (by simp [bytesOf_fmt, bytesOf_WAVE]) h3
    simp only [hbad, h3, ne_eq, not_false_eq_true, if_true]
  have hl16 : 12 + 4 ≤ m.length := length_of_take_drop_eq m 12 (bytesOf "fmt ") (by simp [bytesOf_fmt]) h3
  simp only [Read_tag_ok m (0 + 4 + 4 + 4) (bytesOf "WAVE") (bytesOf "fmt ")
    (by simp [bytesOf_WAVE]) (by simp [bytesOf_fmt]) h3, h3, ne_eq, not_true_eq_false, if_false]
  have hfl : ((bytesOf "fmt ").getD 3 0) ≠ 97 := by simp [bytesOf_fmt]
  have hfb : (bytesOf "fmt ").length = 4 := by simp [bytesOf_fmt]
  by_cases hl20 : m.length < 20
  · obtain ⟨hd, hr⟩ := Read_int32_of_lt m (0 + 4 + 4 + 4 + 4)
      (int32 (binary.LittleEndian.Uint32 ((m.drop (0 + 4)).take 4))) (by omega) (by omega)
    simp only [hd, hr, hl20, if_true]
    generalize int32 (binary.LittleEndian.Uint32 ((m.drop (0 + 4)).take 4)) = R
    by_cases hB : m.length + fmtBodyLen R ≤ m.length
    · rw [readFmtBody_of_le m m.length R hB]
      simp only
      rw [dataStage_eq _ _ _ _ _ hfb hfl]
      have hd0 : m.drop (m.length + fmtBodyLen R) = [] := List.drop_eq_nil_of_le (by omega)
      simp [dataClosed, bytesOf_data, hd0]
    · rw [readFmtBody_of_lt m m.length R le_rfl (by omega)]
      simp only
      rw [dataStage_eq _ _ _ _ _ hfb hfl]
      simp [dataClosed, bytesOf_data]
  · rw [Read_int32_of_le m (0 + 4 + 4 + 4 + 4) _ (by omega)]
    simp only [hl20, if_false]
    have e16 : 0 + 4 + 4 + 4 + 4 = 16 := rfl
    have e20 : 0 + 4 + 4 + 4 + 4 + 4 = 20 := rfl
    rw [e20, e16]
    generalize int32 (binary.LittleEndian.Uint32 ((m.drop 16).take 4)) = S
    by_cases hB : 20 + fmtBodyLen S ≤ m.length
    · rw [readFmtBody_of_le m 20 S hB]
      simp only
      rw [dataStage_eq _ _ _ _ _ hfb hfl]
    · rw [readFmtBody_of_lt m 20 S (by omega) (by omega)]
      simp only
      rw [dataStage_eq _ _ _ _ _ hfb hfl]
      have hd1 : m.drop m.length = [] := by simp
      have hd2 : m.drop (20 + fmtBodyLen S) = [] := List.drop_eq_nil_of_le (by omega)
      simp [dataClosed, bytesOf_data, hd1, hd2]

theorem toNat_toUInt8 (n : Nat) : (n.toUInt8).toNat = n % 256 := by
  simp [UInt8.toNat, Nat.toUInt8, UInt8.ofNat]

theorem Uint16_putUint16 (v : Nat) (rest : List UInt8) :
    binary.LittleEndian.Uint16 (putUint16 v ++ rest) = v % 2 ^ 16 := by
  simp only [binary.LittleEndian.Uint16, putUint16, List.cons_append, List.nil_append,
    List.getD_cons_zero, List.getD_cons_succ, toNat_toUInt8]
  omega

theorem Uint32_putUint32 (v : Nat) (rest : List UInt8) :
    binary.LittleEndian.Uint32 (putUint32 v ++ rest) = v % 2 ^ 32 := by
  simp only [binary.LittleEndian.Uint32, putUint32, List.cons_append, List.nil_append,
    List.getD_cons_zero, List.getD_cons_succ, toNat_toUInt8]
  omega

theorem int16_putInt16 (x : Int) (h1 : -2 ^ 15 ≤ x) (h2 : x < 2 ^ 15) (rest : List UInt8) :
    int16 (binary.LittleEndian.Uint16 (putInt16 x ++ rest)) = x := by
  rw [putInt16, Uint16_putUint16]
  unfold int16
  split <;> omega

theorem int32_putInt32 (x : Int) (h1 : -2 ^ 31 ≤ x) (h2 : x < 2 ^ 31) (rest : List UInt8) :
    int32 (binary.LittleEndian.Uint32 (putInt32 x ++ rest)) = x := by
  rw [putInt32, Uint32_putUint32]
  unfold int32
  split <;> omega

theorem decodeWavFormat_encodeWavFormat (d : WavFormat) (h : d.InRange) (rest : List UInt8) :
    binary.decodeWavFormat (encodeWavFormat d ++ rest) = d := by
  obtain ⟨⟨a1, a2⟩, ⟨b1, b2⟩, ⟨c1, c2⟩, ⟨d1, d2⟩, ⟨e1, e2⟩, ⟨f1, f2⟩⟩ := h
  have t0 : (encodeWavFormat d ++ rest).drop 0 = putInt16 d.FormatTag ++ (putInt16 d.Channels ++ putInt32 d.Samples ++ putInt32 d.AvgBytes
    ++ putInt16 d.BlockAlign ++ putInt16 d.BitsPerSample ++ rest) := by
    simp [encodeWavFormat]
  have t2 : (encodeWavFormat d ++ rest).drop 2 = putInt16 d.Channels ++ (putInt32 d.Samples ++ putInt32 d.AvgBytes
    ++ putInt16 d.BlockAlign ++ putInt16 d.BitsPerSample ++ rest) := by
    simp [encodeWavFormat, putInt16, putUint16]
  have t4 : (encodeWavFormat d ++ rest).drop 4 = putInt32 d.Samples ++ (putInt32 d.AvgBytes
    ++ putInt16 d.BlockAlign ++ putInt16 d.BitsPerSample ++ rest) := by
    simp [encodeWavFormat, putInt16, putUint16]
  have t8 : (encodeWavFormat d ++ rest).drop 8 = putInt32 d.AvgBytes
    ++ (putInt16 d.BlockAlign ++ putInt16 d.BitsPerSample ++ rest) := by
    simp [encodeWavFormat, putInt16, putUint16, putInt32, putUint32]
  have t12 : (encodeWavFormat d ++ rest).drop 12 = 
     putInt16 d.BlockAlign ++ (putInt16 d.BitsPerSample ++ rest) := by
    simp [encodeWavFormat, putInt16, putUint16, putInt32, putUint32]
  have t14 : (encodeWavFormat d ++ rest).drop 14 = putInt16 d.BitsPerSample ++ rest := by
    simp [encodeWavFormat, putInt16, putUint16, putInt32, putUint32]
  unfold binary.decodeWavFormat
  rw [t0, t2, t4, t8, t12, t14]
  rw [int16_putInt16 _ a1 a2, int16_putInt16 _ b1 b2, int32_putInt32 _ c1 c2,
    int32_putInt32 _ d1 d2, int16_putInt16 _ e1 e2, int16_putInt16 _ f1 f2]

theorem fmtBodyLen_16 : fmtBodyLen 16 = 16 := by decide

theorem ReadWav_encodeWav (riffSize : Nat) (d : WavFormat) (payload : List UInt8)
    (hd : d.InRange) (h0 : 0 < payload.length) (h1 : payload.length < 2 ^ 31) :
    ReadWavFromMemory (encodeWav riffSize d payload) = Go.ret ⟨some d, some payload, none⟩ := by
  rw [ReadWavFromMemory_eq]
  have e1 : (encodeWav riffSize d payload).take 4 = bytesOf "RIFF" := by
    simp [encodeWav, bytesOf_RIFF]
  have e2 : ((encodeWav riffSize d payload).drop 8).take 4 = bytesOf "WAVE" := by
    simp [encodeWav, bytesOf_RIFF, bytesOf_WAVE, putUint32]
  have e3 : ((encodeWav riffSize d payload).drop 12).take 4 = bytesOf "fmt " := by
    simp [encodeWav, bytesOf_RIFF, bytesOf_WAVE, bytesOf_fmt, putUint32]
  have e4 : ((encodeWav riffSize d payload).drop 16).take 4 = putUint32 16 ++ [] := by
    simp [encodeWav, bytesOf_RIFF, bytesOf_WAVE, bytesOf_fmt, putUint32]
  have e5 : ((encodeWav riffSize d payload).drop 20).take 16 = encodeWavFormat d ++ [] := by
    simp [encodeWav, bytesOf_RIFF, bytesOf_WAVE, bytesOf_fmt, putUint32, encodeWavFormat,
      putInt16, putInt32, putUint16]
  have e6 : ((encodeWav riffSize d payload).drop 36).take 4 = bytesOf "data" := by
    simp [encodeWav, bytesOf_RIFF, bytesOf_WAVE, bytesOf_fmt, putUint32, encodeWavFormat,
      putInt16, putInt32, putUint16, bytesOf_data]
  have e7 : ((encodeWav riffSize d payload).drop 40).take 4 = putUint32 payload.length ++ [] := by
    simp [encodeWav, bytesOf_RIFF, bytesOf_WAVE, bytesOf_fmt, putUint32, encodeWavFormat,
      putInt16, putInt32, putUint16, bytesOf_data]
  have e8 : (encodeWav riffSize d payload).drop 44 = payload := by
    simp [encodeWav, bytesOf_RIFF, bytesOf_WAVE, bytesOf_fmt, putUint32, encodeWavFormat,
      putInt16, putInt32, putUint16, bytesOf_data]
  have e9 : (encodeWav riffSize d payload).length = 44 + payload.length := by
    simp [encodeWav, bytesOf_RIFF, bytesOf_WAVE, bytesOf_fmt, putUint32, encodeWavFormat,
      putInt16, putInt32, putUint16, bytesOf_data]
    omega
  have hS : int32 (binary.LittleEndian.Uint32 (putUint32 16 ++ [])) = 16 := by decide
  have hD : int32 (binary.LittleEndian.Uint32 (putUint32 payload.length ++ []))
      = payload.length := by
    rw [Uint32_putUint32, Nat.mod_eq_of_lt (by omega), int32_of_lt _ h1]
  unfold ReadWavClosed
  simp only [e1, e2, e3, e4, hS, fmtBodyLen_16, ne_eq, not_true_eq_false, if_false]
  have e20 : ¬ (encodeWav riffSize d payload).length < 20 := by omega
  simp only [e20, if_false]
  unfold dataClosed
  have a1 : 20 + 16 = 36 := rfl
  have a2 : 36 + 4 = 40 := rfl
  have a3 : 36 + 8 = 44 := rfl
  simp only [a1, a2, a3, e5, e6, e7, e8, e9, hD, ne_eq, not_true_eq_false, if_false]
  have c1 : ¬ (44 + payload.length < 44) := by omega
  have c2 : ¬ ((payload.length : Int) < 0) := by omega
  have c3 : ¬ (44 + payload.length = 44) := by omega
  have c4 : ¬ (44 + payload.length - 44 < payload.length) := by omega
  simp only [c1, c2, c3, c4, if_false, Int.toNat_ofNat, List.take_length]
  have hdec := decodeWavFormat_encodeWavFormat d hd []
  rw [List.append_nil] at hdec
  simp [fmtOfBody, hdec]

/-! ## The decoder on inputs described by offsets -/

theorem ReadWav_of_invalid (m : List UInt8) (h : ¬ ValidMagics m) :
    ReadWavFromMemory m = Go.ret ⟨none, none, some WavError.NotAWavFile⟩ := by
  rw [ReadWavFromMemory_eq]
  unfold ReadWavClosed
  unfold ValidMagics at h
  by_cases h1 : m.take 4 = bytesOf "RIFF"
  · by_cases h2 : (m.drop 8).take 4 = bytesOf "WAVE"
    · have h3 : ¬ (m.drop 12).take 4 = bytesOf "fmt " := fun h3 => h ⟨h1, h2, h3⟩
      simp [h1, h2, h3]
    · simp [h1, h2]
  · simp [h1]

theorem ReadWav_of_short (m : List UInt8) (h : ValidMagics m) (hl : m.length < 20) :
    ReadWavFromMemory m = Go.ret ⟨none, none, some WavError.UnsupportedWavFile⟩ := by
  rw [ReadWavFromMemory_eq]
  unfold ReadWavClosed
  obtain ⟨h1, h2, h3⟩ := h
  simp [h1, h2, h3, hl]

theorem ReadWav_of_valid (m : List UInt8) (h : ValidMagics m) (hl : 20 ≤ m.length) :
    ReadWavFromMemory m
      = dataClosed m (dataOffset m) (fmtSize m)
          (fmtOfBody (fmtSize m) ((m.drop 20).take (fmtBodyLen (fmtSize m)))) := by
  rw [ReadWavFromMemory_eq]
  unfold ReadWavClosed
  obtain ⟨h1, h2, h3⟩ := h
  have hl2 : ¬ m.length < 20 := by omega
  simp only [h1, h2, h3, hl2, ne_eq, not_true_eq_false, if_false]
  rfl

theorem Uint32_lt (b : List UInt8) : binary.LittleEndian.Uint32 b < 2 ^ 32 := by
  unfold binary.LittleEndian.Uint32
  have h0 := UInt8.toNat_lt (b.getD 0 0)
  have h1 := UInt8.toNat_lt (b.getD 1 0)
  have h2 := UInt8.toNat_lt (b.getD 2 0)
  have h3 := UInt8.toNat_lt (b.getD 3 0)
  omega

theorem int32_nonneg_iff (u : Nat) (hu : u < 2 ^ 32) : 0 ≤ int32 u ↔ u < 2 ^ 31 := by
  unfold int32
  have : u % 2 ^ 32 = u := Nat.mod_eq_of_lt hu
  rw [this]
  split <;> omega

theorem dataClosed_success (s : List UInt8) (p : Nat) (S : Int) (f : WavFormat) (r : WavReturn)
    (h : dataClosed s p S f = Go.ret r) (hr : r.err = none) :
    (s.drop p).take 4 = bytesOf "data" ∧ p + 8 < s.length
      ∧ binary.LittleEndian.Uint32 ((s.drop (p + 4)).take 4) < 2 ^ 31
      ∧ p + 8 + binary.LittleEndian.Uint32 ((s.drop (p + 4)).take 4) ≤ s.length
      ∧ r = ⟨some f, some ((s.drop (p + 8)).take
              (binary.LittleEndian.Uint32 ((s.drop (p + 4)).take 4))), none⟩ := by
  unfold dataClosed at h
  have hU := Uint32_lt ((s.drop (p + 4)).take 4)
  generalize binary.LittleEndian.Uint32 ((s.drop (p + 4)).take 4) = U at h hU ⊢
  by_cases htag : (s.drop p).take 4 = bytesOf "data"
  swap
  · simp only [htag, ne_eq, not_false_eq_true, if_true, Go.ret.injEq] at h
    subst h
    simp at hr
  simp only [htag, ne_eq, not_true_eq_false, if_false] at h
  by_cases h8 : s.length < p + 8
  · simp only [h8, if_true] at h
    split at h
    · simp at h
    · simp only [Go.ret.injEq] at h
      subst h
      simp at hr
  simp only [h8, if_false] at h
  by_cases hneg : int32 U < 0
  · simp [hneg] at h
  simp only [hneg, if_false] at h
  have hU31 : U < 2 ^ 31 := (int32_nonneg_iff U hU).1 (by omega)
  rw [int32_of_lt U hU31] at h
  simp only [Int.toNat_ofNat] at h
  by_cases hlen : s.length = p + 8
  · simp only [hlen, if_true, Go.ret.injEq] at h
    subst h
    simp at hr
  simp only [hlen, if_false] at h
  by_cases hshort : s.length - (p + 8) < U
  · simp only [hshort, if_true, Go.ret.injEq] at h
    subst h
    simp at hr
  simp only [hshort, if_false, Go.ret.injEq] at h
  refine ⟨htag, by omega, hU31, by omega, h.symm⟩

theorem length_four (l : List UInt8) (h : l.length = 4) : ∃ a b c d, l = [a, b, c, d] := by
  match l, h with
  | [a, b, c, d], _ => exact ⟨a, b, c, d, rfl⟩

theorem dataClosed_append (pre r : List UInt8) (S : Int) (f : WavFormat) :
    dataClosed (pre ++ r) pre.length S f = dataClosed r 0 S f := by
  unfold dataClosed
  have e1 : (pre ++ r).drop pre.length = r := List.drop_left' rfl
  have e2 : (pre ++ r).drop (pre.length + 4) = r.drop 4 := List.drop_append 4
  have e3 : (pre ++ r).drop (pre.length + 8) = r.drop 8 := List.drop_append 8
  have c1 : ((pre ++ r).length < pre.length + 8) ↔ (r.length < 0 + 8) := by
    simp only [List.length_append]; omega
  have c2 : ((pre ++ r).length = pre.length + 8) ↔ (r.length = 0 + 8) := by
    simp only [List.length_append]; omega
  have c3 : (pre ++ r).length - (pre.length + 8) = r.length - (0 + 8) := by
    simp only [List.length_append]; omega
  simp only [e1, e2, e3, c1, c2, c3, List.drop_zero, Nat.zero_add]

theorem dataClosed_size_irrelevant (r : List UInt8) (S T : Int) (f : WavFormat)
    (hS : 0 ≤ S) (hT : 0 ≤ T) : dataClosed r 0 S f = dataClosed r 0 T f := by
  unfold dataClosed
  have h1 : ¬ S < 0 := by omega
  have h2 : ¬ T < 0 := by omega
  simp only [h1, h2, if_false]

theorem ReadWav_of_chunks (sz S4 body r : List UInt8) (hsz : sz.length = 4)
    (hS4 : S4.length = 4)
    (hbody : body.length = fmtBodyLen (int32 (binary.LittleEndian.Uint32 S4))) :
    ReadWavFromMemory (wavHeader sz ++ S4 ++ body ++ r)
      = dataClosed r 0 (int32 (binary.LittleEndian.Uint32 S4))
          (fmtOfBody (int32 (binary.LittleEndian.Uint32 S4)) body) := by
  obtain ⟨s0, s1, s2, s3, rfl⟩ := length_four sz hsz
  obtain ⟨t0, t1, t2, t3, rfl⟩ := length_four S4 hS4
  generalize hm : wavHeader [s0, s1, s2, s3] ++ [t0, t1, t2, t3] ++ body ++ r = m
  have hm2 : m = ([82, 73, 70, 70, s0, s1, s2, s3, 87, 65, 86, 69, 102, 109, 116, 32,
      t0, t1, t2, t3] ++ body) ++ r := by
    rw [← hm]
    simp [wavHeader, bytesOf_RIFF, bytesOf_WAVE, bytesOf_fmt]
  have hv : ValidMagics m := by
    rw [hm2]
    simp [ValidMagics, bytesOf_RIFF, bytesOf_WAVE, bytesOf_fmt]
  have hl : 20 ≤ m.length := by
    rw [hm2]; simp
  have hS : fmtSize m = int32 (binary.LittleEndian.Uint32 [t0, t1, t2, t3]) := by
    rw [hm2]
    simp [fmtSize]
  rw [ReadWav_of_valid m hv hl]
  unfold dataOffset
  rw [hS]
  generalize int32 (binary.LittleEndian.Uint32 [t0, t1, t2, t3]) = S at hbody ⊢
  have hb : (m.drop 20).take (fmtBodyLen S) = body := by
    rw [hm2]
    simp only [List.cons_append, List.nil_append, List.drop_succ_cons, List.drop_zero,
      List.append_assoc]
    exact List.take_left' hbody
  rw [hb]
  have hpre : 20 + fmtBodyLen S = ([82, 73, 70, 70, s0, s1, s2, s3, 87, 65, 86, 69, 102, 109,
      116, 32, t0, t1, t2, t3] ++ body).length := by
    simp [hbody]; omega
  rw [hpre, hm2, dataClosed_append]

theorem fmtOfBody_append (S : Int) (b e : List UInt8) (hb : b.length = 16) :
    fmtOfBody S (b ++ e) = fmtOfBody S b := by
  unfold fmtOfBody
  have h := decodeWavFormat_take 16 le_rfl (b ++ e)
  rw [List.take_left' hb] at h
  rw [h]

theorem fmt_variants_agree (sz b e2 e24 r : List UInt8) (hsz : sz.length = 4)
    (hb : b.length = 16) (he2 : e2.length = 2) (he24 : e24.length = 24) :
    ReadWavFromMemory (wavHeader sz ++ putUint32 16 ++ b ++ r)
        = ReadWavFromMemory (wavHeader sz ++ putUint32 18 ++ b ++ e2 ++ r)
      ∧ ReadWavFromMemory (wavHeader sz ++ putUint32 16 ++ b ++ r)
        = ReadWavFromMemory (wavHeader sz ++ putUint32 40 ++ b ++ e24 ++ r) := by
  have h16 : int32 (binary.LittleEndian.Uint32 (putUint32 16)) = 16 := by decide
  have h18 : int32 (binary.LittleEndian.Uint32 (putUint32 18)) = 18 := by decide
  have h40 : int32 (binary.LittleEndian.Uint32 (putUint32 40)) = 40 := by decide
  have a18 : wavHeader sz ++ putUint32 18 ++ b ++ e2 ++ r
      = wavHeader sz ++ putUint32 18 ++ (b ++ e2) ++ r := by simp only [List.append_assoc]
  have a40 : wavHeader sz ++ putUint32 40 ++ b ++ e24 ++ r
      = wavHeader sz ++ putUint32 40 ++ (b ++ e24) ++ r := by simp only [List.append_assoc]
  rw [a18, a40]
  rw [ReadWav_of_chunks sz (putUint32 16) b r hsz rfl (by rw [h16, hb]; rfl),
    ReadWav_of_chunks sz (putUint32 18) (b ++ e2) r hsz rfl
      (by rw [h18, List.length_append, hb, he2]; rfl),
    ReadWav_of_chunks sz (putUint32 40) (b ++ e24) r hsz rfl
      (by rw [h40, List.length_append, hb, he24]; rfl)]
  rw [h16, h18, h40, fmtOfBody_append 18 b e2 hb, fmtOfBody_append 40 b e24 hb]
  have f18 : fmtOfBody 18 b = fmtOfBody 16 b := by simp [fmtOfBody]
  have f40 : fmtOfBody 40 b = fmtOfBody 16 b := by simp [fmtOfBody]
  rw [f18, f40]
  exact ⟨dataClosed_size_irrelevant r 16 18 _ (by omega) (by omega),
    dataClosed_size_irrelevant r 16 40 _ (by omega) (by omega)⟩

theorem ReadWav_encodeWav_closed (riffSize : Nat) (d : WavFormat) (payload : List UInt8) :
    ReadWavFromMemory (encodeWav riffSize d payload)
      = dataClosed (bytesOf "data" ++ putUint32 payload.length ++ payload) 0 16
          (fmtOfBody 16 (encodeWavFormat d)) := by
  have hlen : (encodeWavFormat d).length = 16 := by
    simp [encodeWavFormat, putInt16, putInt32, putUint16, putUint32]
  have h16 : int32 (binary.LittleEndian.Uint32 (putUint32 16)) = 16 := by decide
  have hm : encodeWav riffSize d payload
      = wavHeader (putUint32 riffSize) ++ putUint32 16 ++ encodeWavFormat d
          ++ (bytesOf "data" ++ putUint32 payload.length ++ payload) := by
    simp only [encodeWav, wavHeader, List.append_assoc]
  rw [hm, ReadWav_of_chunks (putUint32 riffSize) (putUint32 16) (encodeWavFormat d) _ rfl rfl
    (by rw [h16, hlen]; rfl), h16]

theorem ReadWav_encodeWav_large (riffSize : Nat) (d : WavFormat) (payload : List UInt8)
    (h1 : 2 ^ 31 ≤ payload.length) (h2 : payload.length < 2 ^ 32) :
    ReadWavFromMemory (encodeWav riffSize d payload) = Go.panic Panic.makesliceLenOutOfRange := by
  rw [ReadWav_encodeWav_closed]
  unfold dataClosed
  have e1 : ((bytesOf "data" ++ putUint32 payload.length ++ payload).drop 0).take 4
      = bytesOf "data" := by
    simp [bytesOf_data]
  have e2 : ((bytesOf "data" ++ putUint32 payload.length ++ payload).drop (0 + 4)).take 4
      = putUint32 payload.length ++ [] := by
    simp [bytesOf_data, putUint32]
  have e3 : (bytesOf "data" ++ putUint32 payload.length ++ payload).length
      = 8 + payload.length := by
    simp [bytesOf_data, putUint32]
    omega
  have hD : int32 (binary.LittleEndian.Uint32 (putUint32 payload.length ++ [])) < 0 := by
    rw [Uint32_putUint32, Nat.mod_eq_of_lt h2]
    unfold int32
    rw [Nat.mod_eq_of_lt h2]
    split <;> omega
  have c1 : ¬ (8 + payload.length < 0 + 8) := by omega
  simp only [e1, e2, e3, hD, c1, ne_eq, not_true_eq_false, if_false, if_true]

/-! ## The claims -/

/-- Claim C1, as stated, fails at both ends of the payload length. With no
payload bytes the layout of §4.1 ends right after the size field, the read of
zero bytes at the end of the input reports `io.EOF`, and the decoder answers
`ReadError` instead of the descriptor and an empty payload. With 2^31 payload
bytes the size field read as an `int32` is negative and `make` panics. -/
theorem roundtrip_fails_on_empty_or_huge_payload :
    monoFormat.InRange ∧
      ReadWavFromMemory (encodeWav 36 monoFormat [])
        = Go.ret ⟨none, none, some WavError.ReadError⟩ ∧
      ReadWavFromMemory (encodeWav 36 monoFormat [])
        ≠ Go.ret ⟨some monoFormat, some [], none⟩ ∧
      ReadWavFromMemory (encodeWav 36 monoFormat (List.replicate (2 ^ 31) 0))
        = Go.panic Panic.makesliceLenOutOfRange := by
  refine ⟨by simp [WavFormat.InRange, monoFormat], by decide, by decide, ?_⟩
  exact ReadWav_encodeWav_large 36 monoFormat (List.replicate (2 ^ 31) 0)
    (by rw [List.length_replicate]) (by rw [List.length_replicate]; decide)

/-- Claim C1 (amended): for every descriptor whose six fields hold values of
their Go types and every payload of at least one and fewer than 2^31 bytes,
decoding the byte layout of §4.1 returns exactly that descriptor and exactly
those payload bytes, with no error; in particular a mono 16-bit clip whose
payload has 2*N bytes decodes to Channels = 1, BitsPerSample = 16 and a payload
of length 2*N. -/
theorem roundtrip_nonempty_payload (riffSize : Nat) (d : WavFormat) (payload : List UInt8)
    (hd : d.InRange) (h0 : 0 < payload.length) (h1 : payload.length < 2 ^ 31) :
    ReadWavFromMemory (encodeWav riffSize d payload) = Go.ret ⟨some d, some payload, none⟩ ∧
      (d.Channels = 1 → d.BitsPerSample = 16 → ∀ N, payload.length = 2 * N →
        ∃ format data,
          ReadWavFromMemory (encodeWav riffSize d payload)
            = Go.ret ⟨some format, some data, none⟩ ∧
          format.Channels = 1 ∧ format.BitsPerSample = 16 ∧ data.length = 2 * N) := by
  have h := ReadWav_encodeWav riffSize d payload hd h0 h1
  exact ⟨h, fun hc hb N hN => ⟨d, payload, h, hc, hb, hN⟩⟩

/-- Witness of C1: a mono 16-bit clip of two samples. -/
theorem roundtrip_nonempty_payload_witness :
    ReadWavFromMemory (encodeWav 40 monoFormat [1, 2, 3, 4])
      = Go.ret ⟨some monoFormat, some [1, 2, 3, 4], none⟩ :=
  (roundtrip_nonempty_payload 40 monoFormat [1, 2, 3, 4]
    (by simp [WavFormat.InRange, monoFormat]) (by decide) (by decide)).1

/-- Claim C2: with a 16-byte base block `b`, the 16-, 18- and 40-byte `fmt `
variants of the same clip decode to the same outcome, whatever follows: the
same descriptor and payload, or the same failure. -/
theorem fmt_variant_independence (sz b e2 e24 r : List UInt8) (hsz : sz.length = 4)
    (hb : b.length = 16) (he2 : e2.length = 2) (he24 : e24.length = 24) :
    ReadWavFromMemory (wavHeader sz ++ putUint32 16 ++ b ++ r)
        = ReadWavFromMemory (wavHeader sz ++ putUint32 18 ++ b ++ e2 ++ r)
      ∧ ReadWavFromMemory (wavHeader sz ++ putUint32 16 ++ b ++ r)
        = ReadWavFromMemory (wavHeader sz ++ putUint32 40 ++ b ++ e24 ++ r) :=
  fmt_variants_agree sz b e2 e24 r hsz hb he2 he24

/-- Witness of C2: a mono clip of two samples in the three variants. -/
theorem fmt_variant_independence_witness :
    ReadWavFromMemory (wavHeader (putUint32 40) ++ putUint32 16 ++ encodeWavFormat monoFormat
          ++ (bytesOf "data" ++ putUint32 4 ++ [1, 2, 3, 4]))
        = ReadWavFromMemory (wavHeader (putUint32 40) ++ putUint32 18
          ++ encodeWavFormat monoFormat ++ [0, 0]
          ++ (bytesOf "data" ++ putUint32 4 ++ [1, 2, 3, 4]))
      ∧ ReadWavFromMemory (wavHeader (putUint32 40) ++ putUint32 16
          ++ encodeWavFormat monoFormat ++ (bytesOf "data" ++ putUint32 4 ++ [1, 2, 3, 4]))
        = ReadWavFromMemory (wavHeader (putUint32 40) ++ putUint32 40
          ++ encodeWavFormat monoFormat ++ List.replicate 24 7
          ++ (bytesOf "data" ++ putUint32 4 ++ [1, 2, 3, 4])) :=
  fmt_variant_independence (putUint32 40) (encodeWavFormat monoFormat) [0, 0]
    (List.replicate 24 7) (bytesOf "data" ++ putUint32 4 ++ [1, 2, 3, 4])
    (by decide) (by decide) (by decide) (by decide)

/-- Claim C3, as stated, fails when no byte at all follows the size field: the
header is valid, the `data` chunk declares four bytes, none is there, and the
decoder answers `ReadError`, not `SizeMismatch`. -/
theorem truncated_to_nothing_is_ReadError :
    ValidMagics truncatedWav ∧ fmtSize truncatedWav = 16 ∧
      (truncatedWav.drop (dataOffset truncatedWav)).take 4 = bytesOf "data" ∧
      dataSizeField truncatedWav = 4 ∧
      truncatedWav.length - (dataOffset truncatedWav + 8) < dataSizeField truncatedWav ∧
      ReadWavFromMemory truncatedWav = Go.ret ⟨none, none, some WavError.ReadError⟩ ∧
      ReadWavFromMemory truncatedWav ≠ Go.ret ⟨none, none, some WavError.SizeMismatch⟩ := by
  refine ⟨⟨by decide, by decide, by decide⟩, by decide, by decide, by decide, by decide,
    by decide, by decide⟩

/-- Claim C3 (amended): on an input with a valid header (fmt size 16, 18 or 40),
a `data` tag after the fmt body, a complete size field declaring `D < 2^31`
bytes and fewer than `D` bytes after it, decoding fails with `SizeMismatch` when
at least one byte follows the size field, and with `ReadError` when none does. -/
theorem truncated_data_chunk (m : List UInt8) (hv : ValidMagics m)
    (_hS : fmtSize m = 16 ∨ fmtSize m = 18 ∨ fmtSize m = 40)
    (htag : (m.drop (dataOffset m)).take 4 = bytesOf "data")
    (hsz : dataOffset m + 8 ≤ m.length) (hD : dataSizeField m < 2 ^ 31)
    (hshort : m.length - (dataOffset m + 8) < dataSizeField m) :
    (dataOffset m + 8 < m.length →
        ReadWavFromMemory m = Go.ret ⟨none, none, some WavError.SizeMismatch⟩) ∧
      (m.length = dataOffset m + 8 →
        ReadWavFromMemory m = Go.ret ⟨none, none, some WavError.ReadError⟩) := by
  have hl : 20 ≤ m.length := by unfold dataOffset at hsz; omega
  rw [ReadWav_of_valid m hv hl]
  unfold dataClosed
  unfold dataSizeField at hD hshort
  have h8 : ¬ m.length < dataOffset m + 8 := by omega
  simp only [htag, h8, ne_eq, not_true_eq_false, if_false, int32_of_lt _ hD, Int.toNat_ofNat]
  have hneg : ¬ ((binary.LittleEndian.Uint32 ((m.drop (dataOffset m + 4)).take 4) : Nat) : Int) < 0 := by
    omega
  simp only [hneg, if_false, hshort, if_true]
  constructor
  · intro hlt
    have : ¬ m.length = dataOffset m + 8 := by omega
    simp only [this, if_false]
  · intro heq
    simp only [heq, if_true]

/-- Witness of C3: four bytes declared, two present. -/
theorem truncated_data_chunk_witness :
    ReadWavFromMemory (truncatedWav ++ [1, 2])
      = Go.ret ⟨none, none, some WavError.SizeMismatch⟩ :=
  (truncated_data_chunk (truncatedWav ++ [1, 2]) ⟨by decide, by decide, by decide⟩
    (Or.inl (by decide)) (by decide) (by decide) (by decide) (by decide)).1 (by decide)

/-- Claim C4: an input that is too short to hold the three magics, or whose
bytes 0..3 are not `RIFF`, or 8..11 not `WAVE`, or 12..15 not `fmt `, is answered
with `NotAWavFile` and neither a descriptor nor a payload; and a read that gets
fewer than four bytes never leaves the expected tag in the reused buffer. -/
theorem missing_magic_is_NotAWavFile (m : List UInt8)
    (h : m.length < 16 ∨ m.take 4 ≠ bytesOf "RIFF" ∨ (m.drop 8).take 4 ≠ bytesOf "WAVE"
      ∨ (m.drop 12).take 4 ≠ bytesOf "fmt ") :
    ReadWavFromMemory m = Go.ret ⟨none, none, some WavError.NotAWavFile⟩ ∧
      ∀ (s : List UInt8) (i : Nat), s.length < i + 4 →
        (bytes.Reader.Read ⟨s, i⟩ [0, 0, 0, 0]).b ≠ bytesOf "RIFF" ∧
        (bytes.Reader.Read ⟨s, i⟩ (bytesOf "RIFF")).b ≠ bytesOf "WAVE" ∧
        (bytes.Reader.Read ⟨s, i⟩ (bytesOf "WAVE")).b ≠ bytesOf "fmt " ∧
        (bytes.Reader.Read ⟨s, i⟩ (bytesOf "fmt ")).b ≠ bytesOf "data" := by
  constructor
  · apply ReadWav_of_invalid
    rintro ⟨h1, h2, h3⟩
    rcases h with h | h | h | h
    · have := length_of_take_drop_eq m 12 (bytesOf "fmt ") (by simp [bytesOf_fmt]) h3
      omega
    · exact h h1
    · exact h h2
    · exact h h3
  · intro s i hs
    have short : ∀ tag : List UInt8, tag.length = 4 → (s.drop i).take 4 ≠ tag := by
      intro tag ht heq
      have := length_of_take_drop_eq s i tag ht heq
      omega
    refine ⟨?_, ?_, ?_, ?_⟩
    · exact Read_tag_bad s i _ _ rfl (by simp [bytesOf_RIFF]) (short _ (by simp [bytesOf_RIFF]))
    · exact Read_tag_bad s i _ _ (by simp [bytesOf_RIFF]) (by simp [bytesOf_RIFF, bytesOf_WAVE])
        (short _ (by simp [bytesOf_WAVE]))
    · exact Read_tag_bad s i _ _ (by simp [bytesOf_WAVE]) (by simp [bytesOf_WAVE, bytesOf_fmt])
        (short _ (by simp [bytesOf_fmt]))
    · exact Read_tag_bad s i _ _ (by simp [bytesOf_fmt]) (by simp [bytesOf_fmt, bytesOf_data])
        (short _ (by simp [bytesOf_data]))

/-- Witness of C4: a file cut in the middle of the `WAVE` magic. -/
theorem missing_magic_is_NotAWavFile_witness :
    ReadWavFromMemory (bytesOf "RIFF" ++ [36, 0, 0, 0] ++ bytesOf "WA")
      = Go.ret ⟨none, none, some WavError.NotAWavFile⟩ :=
  (missing_magic_is_NotAWavFile (bytesOf "RIFF" ++ [36, 0, 0, 0] ++ bytesOf "WA")
    (Or.inl (by decide))).1

/-- Claim C5: with valid magics and a fmt size `S` of 16, 18 or 40, an input
whose four bytes at offset `20 + S` are not `data`, or are not all there, is
answered with `UnsupportedWavFile`, and both the descriptor and the payload
returned are nil. -/
theorem missing_data_marker_is_Unsupported (m : List UInt8) (hv : ValidMagics m)
    (hl : 20 ≤ m.length) (hS : fmtSize m = 16 ∨ fmtSize m = 18 ∨ fmtSize m = 40)
    (htag : (m.drop (20 + (fmtSize m).toNat)).take 4 ≠ bytesOf "data") :
    ReadWavFromMemory m = Go.ret ⟨none, none, some WavError.UnsupportedWavFile⟩ := by
  rw [ReadWav_of_valid m hv hl]
  have hoff : dataOffset m = 20 + (fmtSize m).toNat := by
    unfold dataOffset fmtBodyLen
    rcases hS with h | h | h <;> rw [h] <;> rfl
  rw [hoff]
  unfold dataClosed
  simp only [htag, ne_eq, not_false_eq_true, if_true]

/-- Witness of C5: the bytes `JUNK` where the `data` tag belongs. -/
theorem missing_data_marker_is_Unsupported_witness :
    ReadWavFromMemory (wavHeader (putUint32 36) ++ putUint32 16 ++ encodeWavFormat monoFormat
        ++ bytesOf "JUNK" ++ putUint32 2 ++ [1, 2])
      = Go.ret ⟨none, none, some WavError.UnsupportedWavFile⟩ :=
  missing_data_marker_is_Unsupported
    (wavHeader (putUint32 36) ++ putUint32 16 ++ encodeWavFormat monoFormat
        ++ bytesOf "JUNK" ++ putUint32 2 ++ [1, 2])
    ⟨by decide, by decide, by decide⟩ (by decide) (Or.inl (by decide)) (by decide)

/-- Claim C6 fails on the code: on a well-formed header followed by a `data`
tag and the size bytes `FF FF FF FF`, `size` is `-1`, `make([]byte, size)`
panics, and `ReadWavFromMemory` does not return. -/
theorem negative_data_size_panics :
    ReadWavFromMemory negativeSizeWav = Go.panic Panic.makesliceLenOutOfRange := by
  decide

/-- Claim C7, as stated, fails on the empty input: decoding fails with
`NotAWavFile`, yet the device, context, source and buffer calls have been
issued by then, and the run ends in a panic carrying the error. -/
theorem decode_failure_after_hardware_calls :
    ReadWavFromMemory [] = Go.ret ⟨none, none, some WavError.NotAWavFile⟩ ∧
      PlaySoundFromMemory [] []
        = ⟨[Call.OpenDevice "", Call.CreateContext, Call.Activate, Call.NewSource,
            Call.NewBuffer], Exit.panicked (Panic.error WavError.NotAWavFile)⟩ := by
  refine ⟨by decide, by decide⟩

/-- Claim C7 (amended): on every input on which `ReadWavFromMemory` returns an
error, `PlaySoundFromMemory` has issued `OpenDevice`, `CreateContext`,
`Activate`, `NewSource` and `NewBuffer`, in this order, before decoding; it
issues no further call (no `SetData`, `SetBuffer`, `Play`, `State`, `Destroy`)
and ends by panicking with the decoder's error. -/
theorem decode_failure_panics (memory : List UInt8) (states : List SourceState)
    (r : WavReturn) (e : WavError) (h : ReadWavFromMemory memory = Go.ret r)
    (he : r.err = some e) :
    PlaySoundFromMemory memory states
      = ⟨[Call.OpenDevice "", Call.CreateContext, Call.Activate, Call.NewSource,
          Call.NewBuffer], Exit.panicked (Panic.error e)⟩ := by
  unfold PlaySoundFromMemory
  simp only [h, he]

/-- Witness of C7: an input cut after `RIFF`. -/
theorem decode_failure_panics_witness :
    PlaySoundFromMemory (bytesOf "RIFF") [SourceState.Playing, SourceState.Stopped]
      = ⟨[Call.OpenDevice "", Call.CreateContext, Call.Activate, Call.NewSource,
          Call.NewBuffer], Exit.panicked (Panic.error WavError.NotAWavFile)⟩ :=
  decode_failure_panics (bytesOf "RIFF") [SourceState.Playing, SourceState.Stopped]
    ⟨none, none, some WavError.NotAWavFile⟩ WavError.NotAWavFile (by decide) rfl

/-- Claim C8, as stated, fails on a three-channel clip: it decodes, nothing is
uploaded, and the buffer is attached and played all the same; the run returns
normally. -/
theorem three_channels_attach_and_play :
    ReadWavFromMemory (encodeWav 42 threeChannelFormat [1, 2, 3, 4, 5, 6])
        = Go.ret ⟨some threeChannelFormat, some [1, 2, 3, 4, 5, 6], none⟩ ∧
      PlaySoundFromMemory (encodeWav 42 threeChannelFormat [1, 2, 3, 4, 5, 6])
          [SourceState.Stopped]
        = ⟨[Call.OpenDevice "", Call.CreateContext, Call.Activate, Call.NewSource,
            Call.NewBuffer, Call.SetBuffer, Call.Play, Call.State, Call.Destroy],
           Exit.returned⟩ := by
  refine ⟨by decide, by decide⟩

/-- Claim C8 (amended): when the input decodes to a descriptor and a payload,
`PlaySoundFromMemory` uploads the whole payload as mono-16 for channel count 1
and as stereo-16 for channel count 2, each time with the descriptor's sample
rate, and uploads nothing for any other channel count; in all three cases it
then attaches the buffer, calls `Play` and goes on to poll, without a panic. -/
theorem channel_count_dispatch (memory : List UInt8) (states : List SourceState)
    (format : WavFormat) (data : List UInt8)
    (h : ReadWavFromMemory memory = Go.ret ⟨some format, some data, none⟩) :
    (format.Channels = 1 →
        PlaySoundFromMemory memory states
          = ⟨[Call.OpenDevice "", Call.CreateContext, Call.Activate, Call.NewSource,
              Call.NewBuffer, Call.SetData Format.FormatMono16 data format.Samples,
              Call.SetBuffer, Call.Play] ++ (afterPlay states).1, (afterPlay states).2⟩) ∧
      (format.Channels = 2 →
        PlaySoundFromMemory memory states
          = ⟨[Call.OpenDevice "", Call.CreateContext, Call.Activate, Call.NewSource,
              Call.NewBuffer, Call.SetData Format.FormatStereo16 data format.Samples,
              Call.SetBuffer, Call.Play] ++ (afterPlay states).1, (afterPlay states).2⟩) ∧
      (format.Channels ≠ 1 → format.Channels ≠ 2 →
        PlaySoundFromMemory memory states
          = ⟨[Call.OpenDevice "", Call.CreateContext, Call.Activate, Call.NewSource,
              Call.NewBuffer, Call.SetBuffer, Call.Play] ++ (afterPlay states).1,
             (afterPlay states).2⟩) ∧
      (∀ p, (afterPlay states).2 ≠ Exit.panicked p) := by
  refine ⟨?_, ?_, ?_, ?_⟩
  · intro hc
    unfold PlaySoundFromMemory afterPlay
    simp only [h, hc]
    split <;> simp
  · intro hc
    have h1 : ¬ format.Channels = 1 := by omega
    unfold PlaySoundFromMemory afterPlay
    simp only [h, hc, h1]
    split <;> simp
  · intro h1 h2
    unfold PlaySoundFromMemory afterPlay
    simp only [h, h1, h2]
    split <;> simp
  · intro p
    unfold afterPlay
    split <;> simp

/-- Witness of C8: a mono clip of two samples, played to the end. -/
theorem channel_count_dispatch_witness :
    PlaySoundFromMemory (encodeWav 40 monoFormat [1, 2, 3, 4])
        [SourceState.Playing, SourceState.Stopped]
      = ⟨[Call.OpenDevice "", Call.CreateContext, Call.Activate, Call.NewSource,
          Call.NewBuffer, Call.SetData Format.FormatMono16 [1, 2, 3, 4] 8000,
          Call.SetBuffer, Call.Play, Call.State, Call.State, Call.Destroy],
         Exit.returned⟩ :=
  (channel_count_dispatch (encodeWav 40 monoFormat [1, 2, 3, 4])
    [SourceState.Playing, SourceState.Stopped] monoFormat [1, 2, 3, 4] (by decide)).1 rfl

/-- Claim C9: whenever `ReadWavFromMemory` succeeds, the `data` tag is followed
in the input by a complete four-byte size field `D`, the payload returned has
length exactly `D`, and it is the `D` input bytes after that field. -/
theorem payload_is_declared_bytes (m : List UInt8) (r : WavReturn)
    (h : ReadWavFromMemory m = Go.ret r) (hr : r.err = none) :
    (m.drop (dataOffset m)).take 4 = bytesOf "data" ∧
      dataOffset m + 8 ≤ m.length ∧
      ∃ payload, r.data = some payload ∧ payload.length = dataSizeField m ∧
        payload = (m.drop (dataOffset m + 8)).take (dataSizeField m) := by
  by_cases hv : ValidMagics m
  swap
  · rw [ReadWav_of_invalid m hv] at h
    simp only [Go.ret.injEq] at h
    subst h
    simp at hr
  by_cases hl : m.length < 20
  · rw [ReadWav_of_short m hv hl] at h
    simp only [Go.ret.injEq] at h
    subst h
    simp at hr
  rw [ReadWav_of_valid m hv (by omega)] at h
  obtain ⟨h1, h2, -, h4, h5⟩ := dataClosed_success _ _ _ _ _ h hr
  refine ⟨h1, by omega, (m.drop (dataOffset m + 8)).take (dataSizeField m), by rw [h5]; rfl,
    ?_, rfl⟩
  unfold dataSizeField
  rw [List.length_take, List.length_drop]
  omega

/-- Witness of C9: two samples and a trailing byte that is ignored. -/
theorem payload_is_declared_bytes_witness :
    ((encodeWav 40 monoFormat [1, 2, 3, 4] ++ [9]).drop
          (dataOffset (encodeWav 40 monoFormat [1, 2, 3, 4] ++ [9]))).take 4 = bytesOf "data" ∧
      dataOffset (encodeWav 40 monoFormat [1, 2, 3, 4] ++ [9]) + 8
        ≤ (encodeWav 40 monoFormat [1, 2, 3, 4] ++ [9]).length ∧
      ∃ payload, (some [1, 2, 3, 4] : Option (List UInt8)) = some payload ∧
        payload.length = dataSizeField (encodeWav 40 monoFormat [1, 2, 3, 4] ++ [9]) ∧
        payload = ((encodeWav 40 monoFormat [1, 2, 3, 4] ++ [9]).drop
          (dataOffset (encodeWav 40 monoFormat [1, 2, 3, 4] ++ [9]) + 8)).take
            (dataSizeField (encodeWav 40 monoFormat [1, 2, 3, 4] ++ [9])) :=
  payload_is_declared_bytes (encodeWav 40 monoFormat [1, 2, 3, 4] ++ [9])
    ⟨some monoFormat, some [1, 2, 3, 4], none⟩ (by decide) rfl

/-- Claim C10: with valid magics and a fmt size other than 16, 18 and 40, the
decoder goes on at offset 20 with a zero descriptor: it asks for the `data` tag
there, and whenever it succeeds the descriptor returned has its six fields
equal to zero. -/
theorem unrecognised_fmt_size (m : List UInt8) (hv : ValidMagics m) (hl : 20 ≤ m.length)
    (h16 : fmtSize m ≠ 16) (h18 : fmtSize m ≠ 18) (h40 : fmtSize m ≠ 40) :
    ReadWavFromMemory m = dataStage ⟨m, 20⟩ (bytesOf "fmt ") (fmtSize m) WavFormat.zero ∧
      ((m.drop 20).take 4 ≠ bytesOf "data" →
        ReadWavFromMemory m = Go.ret ⟨none, none, some WavError.UnsupportedWavFile⟩) ∧
      (∀ r, ReadWavFromMemory m = Go.ret r → r.err = none →
        r.format = some ⟨0, 0, 0, 0, 0, 0⟩ ∧ (m.drop 20).take 4 = bytesOf "data") := by
  have hoff : dataOffset m = 20 := by
    unfold dataOffset fmtBodyLen
    simp [h16, h18, h40]
  have hfmt : ∀ body, fmtOfBody (fmtSize m) body = WavFormat.zero := by
    intro body
    unfold fmtOfBody
    simp [h16, h18, h40]
  have hclosed : ReadWavFromMemory m = dataClosed m 20 (fmtSize m) WavFormat.zero := by
    rw [ReadWav_of_valid m hv hl, hoff, hfmt]
  refine ⟨?_, ?_, ?_⟩
  · rw [hclosed, dataStage_eq m 20 _ _ _ (by simp [bytesOf_fmt]) (by simp [bytesOf_fmt])]
  · intro htag
    rw [hclosed]
    unfold dataClosed
    simp only [htag, ne_eq, not_false_eq_true, if_true]
  · intro r h hr
    rw [hclosed] at h
    obtain ⟨h1, -, -, -, h5⟩ := dataClosed_success _ _ _ _ _ h hr
    exact ⟨by rw [h5]; rfl, h1⟩

/-- Witness of C10: a fmt size of 7, the `data` chunk right after it. -/
theorem unrecognised_fmt_size_witness :
    ReadWavFromMemory (wavHeader (putUint32 14) ++ putUint32 7 ++ bytesOf "data"
        ++ putUint32 1 ++ [5, 6])
      = dataStage ⟨wavHeader (putUint32 14) ++ putUint32 7 ++ bytesOf "data"
          ++ putUint32 1 ++ [5, 6], 20⟩ (bytesOf "fmt ")
          (fmtSize (wavHeader (putUint32 14) ++ putUint32 7 ++ bytesOf "data"
            ++ putUint32 1 ++ [5, 6])) WavFormat.zero :=
  (unrecognised_fmt_size (wavHeader (putUint32 14) ++ putUint32 7 ++ bytesOf "data"
      ++ putUint32 1 ++ [5, 6])
    ⟨by decide, by decide, by decide⟩ (by decide) (by decide) (by decide) (by decide)).1

end openal
